import Mathlib

/-!
Verification of the candidate-selection and latency-ranking pipeline of the
Mullvad server-finder repository.

The embedding models:
* the pure distance function haversineDistance (GeoDistance), over exact
  real arithmetic;
* the probe loop testServerLatency / testTCPLatency (ReachabilityProbe),
  with transport outcomes supplied by an environment function net in which
  every connection failure, error or timeout is already absorbed into none
  (the source resolves the promise with null on timeout / error / a throwing
  connect call, so the promise never rejects);
* the full hybrid /api/closest handler (CandidateSelector), staged into the
  same intermediate lists the source builds (locationsWithDistance,
  topCandidates, latencyTests, validResults, topServers, results).

External state (the relational store and the network) is a record Env.
Numeric values are embedded as rationals (every JavaScript double is a
rational); the geographic distance values live in an arbitrary linear
ordered field K so that the selector covers both the real-valued haversine
instantiation and, for concrete evaluation, computable rational distance
functions.  JavaScript Array#sort with the numeric comparator
(a, b) => key(a) - key(b) is a stable ascending sort by key (ES2019), and a
stable sort by a total preorder is a unique function of the input list, so
it is embedded as insertion sort.
-/

namespace Mullvad

/-! ### GeoDistance: the haversine formula, over exact reals -/

/-- Embeds the local arrow function: toRadians = (degree) => (degree * Math.PI) / 180. -/
noncomputable def toRadians (degree : ℝ) : ℝ := degree * Real.pi / 180

/-- Embeds JavaScript Math.atan2 (two-argument arctangent) on real numbers,
with the standard branch structure (signed zeros are not distinguishable in
the real-number embedding). -/
noncomputable def atan2 (y x : ℝ) : ℝ :=
  if 0 < x then Real.arctan (y / x)
  else if x < 0 then
    (if 0 ≤ y then Real.arctan (y / x) + Real.pi else Real.arctan (y / x) - Real.pi)
  else
    (if 0 < y then Real.pi / 2 else if y < 0 then -(Real.pi / 2) else 0)

/-- The intermediate value named a in the source of haversineDistance:
a = sin(dLat/2)*sin(dLat/2) + cos(toRadians lat1)*cos(toRadians lat2)*sin(dLon/2)*sin(dLon/2). -/
noncomputable def haversineA (lat1 lon1 lat2 lon2 : ℝ) : ℝ :=
  Real.sin (toRadians (lat2 - lat1) / 2) * Real.sin (toRadians (lat2 - lat1) / 2) +
    Real.cos (toRadians lat1) * Real.cos (toRadians lat2) *
      (Real.sin (toRadians (lon2 - lon1) / 2) * Real.sin (toRadians (lon2 - lon1) / 2))

/-- Embeds function haversineDistance(lat1, lon1, lat2, lon2) from the source:
c = 2 * Math.atan2(Math.sqrt(a), Math.sqrt(1 - a)); return R * c with R = 6371. -/
noncomputable def haversineDistance (lat1 lon1 lat2 lon2 : ℝ) : ℝ :=
  let R : ℝ := 6371
  let a := haversineA lat1 lon1 lat2 lon2
  let c := 2 * atan2 (Real.sqrt a) (Real.sqrt (1 - a))
  R * c

/-- Modelled from the spec wording of section 4.1: the same computation but
with the square-root argument clamped to the interval [0,1] before the
inverse-trig step.  This definition follows the words of the spec and is
compared with haversineDistance, which embeds the source. -/
noncomputable def haversineDistanceSpec (lat1 lon1 lat2 lon2 : ℝ) : ℝ :=
  let R : ℝ := 6371
  let a := max 0 (min 1 (haversineA lat1 lon1 lat2 lon2))
  let c := 2 * atan2 (Real.sqrt a) (Real.sqrt (1 - a))
  R * c

/-! ### ReachabilityProbe: testTCPLatency and testServerLatency

A transport outcome function net : hostname -> port -> Option latency stands
for the network; none covers connection errors, timeout expiry and throwing
connect calls, exactly the cases the source resolves to null. -/

/-- Embeds testTCPLatency(hostname, port, timeout): the resolved value of the
promise, with every transport failure (connection error, expiry of the given
timeout, throwing connect call) absorbed into none by the outcome function. -/
def testTCPLatency (net : String → Nat → Option ℚ) (hostname : String) (port : Nat)
    (_timeout : Nat) : Option ℚ :=
  net hostname port

/-- The for-loop body of testServerLatency: try each port in order with a
4000 ms per-attempt timeout, returning the first successful latency, or none
when every port fails. -/
def tryPortsLoop (net : String → Nat → Option ℚ) (hostname : String) :
    List Nat → Option ℚ
  | [] => none
  | port :: rest =>
    match testTCPLatency net hostname port 4000 with
    | some latency => some latency
    | none => tryPortsLoop net hostname rest

/-- Embeds testServerLatency(hostname): const ports = [443, 80], looping with
testTCPLatency(hostname, port, 4000) and returning the first non-null result. -/
def testServerLatency (net : String → Nat → Option ℚ) (hostname : String) : Option ℚ :=
  tryPortsLoop net hostname [443, 80]

/-- The list of ports the loop actually attempts before returning. -/
def tryPortsAttempts (net : String → Nat → Option ℚ) (hostname : String) :
    List Nat → List Nat
  | [] => []
  | port :: rest =>
    match net hostname port with
    | some _ => [port]
    | none => port :: tryPortsAttempts net hostname rest

/-- Ports attempted by a single call of testServerLatency. -/
def testServerLatencyAttempts (net : String → Nat → Option ℚ) (hostname : String) :
    List Nat :=
  tryPortsAttempts net hostname [443, 80]

/-! ### Data model and environment -/

/-- A row of the servers table, as selected by the pipeline queries. -/
structure Server where
  hostname : String
  ipv4_addr_in : Option String
  ipv6_addr_in : Option String
deriving DecidableEq

/-- A row of server_locations joined with cities (already flattened, as
produced by getServerLocationsWithCoordinates): latitude and longitude are
the optional-chained city coordinates. -/
structure Loc where
  city_name : String
  city_code : String
  country_name : String
  country_code : String
  server_count : Nat
  provider : String
  speed : Nat
  owned : Bool
  latitude : Option ℚ
  longitude : Option ℚ
deriving DecidableEq

/-- The external world of one selection call: whether the catalog query
succeeds, the joined catalog rows (ordered by country then city, as the
query requests), the servers-table rows per (city_code, country_code) pair,
and the transport outcomes. -/
structure Env where
  catalogOk : Bool
  server_locations : List Loc
  serversFor : String → String → List Server
  net : String → Nat → Option ℚ

/-- Embeds getServerLocationsWithCoordinates: on a query error the catch
block logs and returns the empty list. -/
def getServerLocationsWithCoordinates (env : Env) : List Loc :=
  if env.catalogOk then env.server_locations else []

/-- JavaScript truthiness of an optional numeric field: null, undefined and 0
are all falsy. -/
def truthy (v : Option ℚ) : Bool :=
  match v with
  | none => false
  | some x => decide (x ≠ 0)

/-- A location enriched with its geographic distance (the spread
...location, geoDistance object of STEP 2). -/
structure Cand (K : Type) where
  loc : Loc
  geoDistance : K
deriving DecidableEq

/-- A candidate after the latency-testing STEP 4 (the spread ...location,
server, tcpLatency object). -/
structure Tested (K : Type) where
  cand : Cand K
  server : Option Server
  tcpLatency : Option ℚ
deriving DecidableEq

/-- One element of the JSON array returned by the hybrid /api/closest. -/
structure Entry where
  hostname : String
  name : String
  country : String
  country_code : String
  city : String
  city_code : String
  latitude : Option ℚ
  longitude : Option ℚ
  ipv4 : Option String
  ipv6 : Option String
  provider : String
  owned : Bool
  speed : Nat
  distance : ℤ
  serverCount : Nat
  tcpLatency : Option ℚ
deriving DecidableEq

/-- The HTTP-level outcome of the handler: the 400 invalid-coordinate
rejection, or the JSON candidate list. -/
inductive Response where
  | badRequest : Response
  | ok : List Entry → Response
deriving DecidableEq

/-- Outcome of one /api/closest call, together with the observable effects
the error-handling claims are about: whether the catalog was queried and
which hosts were handed to the probe. -/
structure CallResult where
  response : Response
  catalogFetched : Bool
  probedHosts : List String
deriving DecidableEq

/-! ### CandidateSelector: the hybrid /api/closest pipeline -/

section Pipeline

variable {K : Type} [LinearOrderedField K] [FloorRing K]

/-- STEP 2 of the handler: filter out locations whose latitude or longitude
is falsy, attach geoDistance, and sort ascending by it. -/
def locationsWithDistance (geoDist : ℚ → ℚ → ℚ → ℚ → K) (env : Env) (lat lon : ℚ) :
    List (Cand K) :=
  (((getServerLocationsWithCoordinates env).filter
      (fun loc => truthy loc.latitude && truthy loc.longitude)).map
    (fun loc => ⟨loc, geoDist lat lon (loc.latitude.getD 0) (loc.longitude.getD 0)⟩)).insertionSort
    (fun a b => a.geoDistance ≤ b.geoDistance)

/-- STEP 3: the geographic shortlist, the first 25 by distance. -/
def topCandidates (geoDist : ℚ → ℚ → ℚ → ℚ → K) (env : Env) (lat lon : ℚ) :
    List (Cand K) :=
  (locationsWithDistance geoDist env lat lon).take 25

/-- STEP 4 inner fan-out: probe each member server of a location (a member
with no ipv4_addr_in is not probed and keeps a null latency). -/
def serverTests (env : Env) (loc : Loc) : List (Server × Option ℚ) :=
  (env.serversFor loc.city_code loc.country_code).map fun server =>
    match server.ipv4_addr_in with
    | none => (server, none)
    | some ip => (server, testServerLatency env.net ip)

/-- STEP 4 per location: with no member servers the location keeps a null
server and latency; otherwise the successful probes are sorted ascending by
latency and the fastest member is chosen; if every probe failed the first
member is kept with a null latency. -/
def latencyTestLocation (env : Env) (c : Cand K) : Tested K :=
  match env.serversFor c.loc.city_code c.loc.country_code with
  | [] => ⟨c, none, none⟩
  | s0 :: _ =>
    match ((serverTests env c.loc).filterMap
        (fun t => t.2.map (fun l => (t.1, l)))).insertionSort (fun a b => a.2 ≤ b.2) with
    | [] => ⟨c, some s0, none⟩
    | best :: _ => ⟨c, some best.1, some best.2⟩

/-- STEP 4: latency-test all shortlisted locations. -/
def latencyTests (geoDist : ℚ → ℚ → ℚ → ℚ → K) (env : Env) (lat lon : ℚ) :
    List (Tested K) :=
  (topCandidates geoDist env lat lon).map (latencyTestLocation env)

/-- STEP 5: the latency-test results that obtained a measured latency. -/
def validResults (geoDist : ℚ → ℚ → ℚ → ℚ → K) (env : Env) (lat lon : ℚ) :
    List (Tested K) :=
  (latencyTests geoDist env lat lon).filter (fun r => r.tcpLatency.isSome)

/-- STEP 5: with at least one measured result, sort the measured results
ascending by latency and keep the first five; otherwise fall back to the
first five of the geographic shortlist, each annotated with the first member
server of its location and no latency. -/
def topServers (geoDist : ℚ → ℚ → ℚ → ℚ → K) (env : Env) (lat lon : ℚ) :
    List (Tested K) :=
  if 0 < (validResults geoDist env lat lon).length then
    ((validResults geoDist env lat lon).insertionSort
      (fun a b => a.tcpLatency.getD 0 ≤ b.tcpLatency.getD 0)).take 5
  else
    ((topCandidates geoDist env lat lon).take 5).map fun c =>
      ⟨c, (env.serversFor c.loc.city_code c.loc.country_code).head?, none⟩

/-- The response-formatting map at the end of the handler (Math.round of a
real number x is the floor of x + 1/2, which is what round computes). -/
def formatEntry (t : Tested K) : Entry :=
  { hostname := (t.server.map Server.hostname).getD (t.cand.loc.city_code ++ "-server")
    name := (t.server.map Server.hostname).getD (t.cand.loc.city_code ++ "-server")
    country := t.cand.loc.country_name
    country_code := t.cand.loc.country_code
    city := t.cand.loc.city_name
    city_code := t.cand.loc.city_code
    latitude := t.cand.loc.latitude
    longitude := t.cand.loc.longitude
    ipv4 := t.server.bind Server.ipv4_addr_in
    ipv6 := t.server.bind Server.ipv6_addr_in
    provider := t.cand.loc.provider
    owned := t.cand.loc.owned
    speed := t.cand.loc.speed
    distance := round t.cand.geoDistance
    serverCount := t.cand.loc.server_count
    tcpLatency := t.tcpLatency }

/-- The formatted JSON array of the hybrid handler. -/
def results (geoDist : ℚ → ℚ → ℚ → ℚ → K) (env : Env) (lat lon : ℚ) : List Entry :=
  (topServers geoDist env lat lon).map formatEntry

/-- Hosts handed to testServerLatency for one location in STEP 4. -/
def probedHostsLocation (env : Env) (loc : Loc) : List String :=
  (env.serversFor loc.city_code loc.country_code).filterMap Server.ipv4_addr_in

/-- Embeds the whole hybrid /api/closest handler.  latQ and lonQ are the
parseFloat results of the query parameters, with none standing for NaN
(unparseable or missing input); the handler rejects exactly that case with
the 400 response, before the catalog query and the probe fan-out. -/
def apiClosest (geoDist : ℚ → ℚ → ℚ → ℚ → K) (env : Env) (latQ lonQ : Option ℚ) :
    CallResult :=
  if latQ.isNone || lonQ.isNone then ⟨Response.badRequest, false, []⟩
  else
    ⟨Response.ok (results geoDist env (latQ.getD 0) (lonQ.getD 0)),
      true,
      (topCandidates geoDist env (latQ.getD 0) (lonQ.getD 0)).flatMap
        (fun c => probedHostsLocation env c.loc)⟩

/-- The selector as the source runs it: distances computed by the real-valued
haversine formula on the rational coordinates. -/
noncomputable def apiClosestHaversine (env : Env) (latQ lonQ : Option ℚ) : CallResult :=
  apiClosest (fun lat lon lat2 lon2 =>
    haversineDistance (lat : ℝ) (lon : ℝ) (lat2 : ℝ) (lon2 : ℝ)) env latQ lonQ

end Pipeline

/-! ### Concrete evaluation fixtures

Small computable environments used by the witnesses and counterexamples.
The distance function qDist reads off the candidate latitude, so all
rational values stay literal and kernel-evaluable. -/

def qDist (_u _v la _lo : ℚ) : ℚ := la

def locP : Loc := ⟨"ppp", "pp", "Pland", "pl", 2, "ProvA", 10, true, some 1, some 2⟩

def locQ : Loc := ⟨"qqq", "qq", "Qland", "ql", 1, "ProvB", 10, false, some 2, some 2⟩

def locZ : Loc := ⟨"zzz", "zz", "Zland", "zl", 1, "ProvC", 10, false, some 0, some 5⟩

def srvP1 : Server := ⟨"p1", some "10.0.0.1", none⟩

def srvP2 : Server := ⟨"p2", some "10.0.0.2", none⟩

def srvQ1 : Server := ⟨"q1", some "10.0.0.3", none⟩

def srvZ1 : Server := ⟨"z1", some "10.0.0.9", none⟩

def envA : Env :=
  { catalogOk := true
    server_locations := [locP, locQ, locZ]
    serversFor := fun city country =>
      if city = "pp" ∧ country = "pl" then [srvP1, srvP2]
      else if city = "qq" ∧ country = "ql" then [srvQ1]
      else if city = "zz" ∧ country = "zl" then [srvZ1]
      else []
    net := fun host port =>
      if host = "10.0.0.1" ∧ port = 443 then some 30
      else if host = "10.0.0.2" ∧ port = 80 then some 10
      else if host = "10.0.0.3" ∧ port = 443 then some 10
      else none }

def envDown : Env := { envA with catalogOk := false }

def envBlocked : Env := { envA with net := fun _ _ => none }

def netW : String → Nat → Option ℚ := fun _ port => if port = 80 then some 7 else none

def candP : Cand ℚ := ⟨locP, 1⟩

/-! ### GeoDistance properties -/

/-- The square-root argument of the haversine formula always lies in [0,1]
in exact real arithmetic, for arbitrary (even out-of-range) inputs. -/
theorem haversineA_mem_Icc (lat1 lon1 lat2 lon2 : ℝ) :
    0 ≤ haversineA lat1 lon1 lat2 lon2 ∧ haversineA lat1 lon1 lat2 lon2 ≤ 1 := by
  have hlin : toRadians (lat2 - lat1) = toRadians lat2 - toRadians lat1 := by
    unfold toRadians; ring
  set α := toRadians lat1 with hα
  set β := toRadians lat2 with hβ
  set γ := toRadians (lon2 - lon1) with hγ
  have hsq : ∀ x : ℝ, Real.sin (x / 2) * Real.sin (x / 2) = 1 / 2 - Real.cos x / 2 := by
    intro x
    have h := Real.sin_sq_eq_half_sub (x / 2)
    have h2 : 2 * (x / 2) = x := by ring
    rw [h2] at h
    calc Real.sin (x / 2) * Real.sin (x / 2) = Real.sin (x / 2) ^ 2 := by ring
      _ = 1 / 2 - Real.cos x / 2 := h
  have ha : haversineA lat1 lon1 lat2 lon2 =
      (1 - (Real.sin α * Real.sin β + Real.cos α * Real.cos β * Real.cos γ)) / 2 := by
    unfold haversineA
    rw [hlin, ← hα, ← hβ, ← hγ, hsq, hsq, Real.cos_sub]
    ring
  have h1 : Real.sin α ^ 2 + Real.cos α ^ 2 = 1 := Real.sin_sq_add_cos_sq α
  have h2 : Real.sin β ^ 2 + Real.cos β ^ 2 = 1 := Real.sin_sq_add_cos_sq β
  have hg1 : -1 ≤ Real.cos γ := Real.neg_one_le_cos γ
  have hg2 : Real.cos γ ≤ 1 := Real.cos_le_one γ
  constructor
  · rw [ha]
    rcases le_or_lt 0 (Real.cos α * Real.cos β) with hc | hc
    · nlinarith [sq_nonneg (Real.sin α - Real.sin β), sq_nonneg (Real.cos α - Real.cos β),
        mul_nonneg hc (sub_nonneg.mpr hg2)]
    · nlinarith [sq_nonneg (Real.sin α - Real.sin β), sq_nonneg (Real.cos α + Real.cos β),
        mul_nonneg (le_of_lt (neg_pos.mpr hc)) (by linarith : (0:ℝ) ≤ 1 + Real.cos γ)]
  · rw [ha]
    rcases le_or_lt 0 (Real.cos α * Real.cos β) with hc | hc
    · nlinarith [sq_nonneg (Real.sin α + Real.sin β), sq_nonneg (Real.cos α + Real.cos β),
        mul_nonneg hc (by linarith : (0:ℝ) ≤ 1 + Real.cos γ)]
    · nlinarith [sq_nonneg (Real.sin α + Real.sin β), sq_nonneg (Real.cos α - Real.cos β),
        mul_nonneg (le_of_lt (neg_pos.mpr hc)) (sub_nonneg.mpr hg2)]

/-- On nonnegative arguments atan2 is nonnegative. -/
theorem atan2_nonneg {y x : ℝ} (hy : 0 ≤ y) (hx : 0 ≤ x) : 0 ≤ atan2 y x := by
  unfold atan2
  split_ifs with h1 h2 h3 h4
  · have h0 : (0:ℝ) ≤ y / x := div_nonneg hy (le_of_lt h1)
    have h := Real.arctan_strictMono.monotone h0
    rwa [Real.arctan_zero] at h
  · linarith
  · positivity
  · linarith
  · exact le_refl 0

/-- The a-value is symmetric in the two coordinates. -/
theorem haversineA_symm (lat1 lon1 lat2 lon2 : ℝ) :
    haversineA lat1 lon1 lat2 lon2 = haversineA lat2 lon2 lat1 lon1 := by
  unfold haversineA toRadians
  have e1 : (lat1 - lat2) * Real.pi / 180 / 2 = -((lat2 - lat1) * Real.pi / 180 / 2) := by ring
  have e2 : (lon1 - lon2) * Real.pi / 180 / 2 = -((lon2 - lon1) * Real.pi / 180 / 2) := by ring
  rw [e1, e2, Real.sin_neg, Real.sin_neg]
  ring

/-- The a-value vanishes on identical coordinates. -/
theorem haversineA_self (lat lon : ℝ) : haversineA lat lon lat lon = 0 := by
  unfold haversineA toRadians
  simp

/-- Claim C7: for all coordinates, haversineDistance returns a value that is
nonnegative; its square-root argument always lies in [0,1] before the
inverse-trig step (so no square root of a negative number is ever taken, even
at or beyond antipodal inputs), and the computation agrees with the clamped
formulation the spec describes. -/
theorem distanceKm_nonneg_and_clamp_agrees (lat1 lon1 lat2 lon2 : ℝ) :
    0 ≤ haversineA lat1 lon1 lat2 lon2 ∧ haversineA lat1 lon1 lat2 lon2 ≤ 1 ∧
      0 ≤ haversineDistance lat1 lon1 lat2 lon2 ∧
      haversineDistance lat1 lon1 lat2 lon2 = haversineDistanceSpec lat1 lon1 lat2 lon2 := by
  obtain ⟨h0, h1⟩ := haversineA_mem_Icc lat1 lon1 lat2 lon2
  refine ⟨h0, h1, ?_, ?_⟩
  · unfold haversineDistance
    have h2 : 0 ≤ atan2 (Real.sqrt (haversineA lat1 lon1 lat2 lon2))
        (Real.sqrt (1 - haversineA lat1 lon1 lat2 lon2)) :=
      atan2_nonneg (Real.sqrt_nonneg _) (Real.sqrt_nonneg _)
    have h71 : (0:ℝ) ≤ 6371 := by norm_num
    exact mul_nonneg h71 (mul_nonneg (by norm_num) h2)
  · unfold haversineDistance haversineDistanceSpec
    rw [min_eq_right h1, max_eq_right h0]

/-- Claim C8: haversineDistance is symmetric in its two coordinate arguments
and vanishes on identical coordinates. -/
theorem distanceKm_symm_and_self_eq_zero :
    (∀ lat1 lon1 lat2 lon2 : ℝ,
        haversineDistance lat1 lon1 lat2 lon2 = haversineDistance lat2 lon2 lat1 lon1) ∧
      ∀ lat lon : ℝ, haversineDistance lat lon lat lon = 0 := by
  constructor
  · intro lat1 lon1 lat2 lon2
    unfold haversineDistance
    rw [haversineA_symm lat2 lon2 lat1 lon1]
  · intro lat lon
    unfold haversineDistance
    rw [haversineA_self]
    norm_num [atan2, Real.arctan_zero]

/-! ### ReachabilityProbe properties -/

theorem tryPortsLoop_eq_none_iff (net : String → Nat → Option ℚ) (hostname : String) :
    ∀ ports : List Nat,
      tryPortsLoop net hostname ports = none ↔ ∀ p ∈ ports, net hostname p = none := by
  intro ports
  induction ports with
  | nil => simp [tryPortsLoop]
  | cons port rest ih =>
    simp only [tryPortsLoop, testTCPLatency]
    cases h : net hostname port with
    | some l => simp [h]
    | none => simpa [h] using ih

theorem tryPortsLoop_eq_some (net : String → Nat → Option ℚ) (hostname : String) :
    ∀ (ports : List Nat) (l : ℚ), tryPortsLoop net hostname ports = some l →
      ∃ pre p post, ports = pre ++ p :: post ∧ (∀ q ∈ pre, net hostname q = none) ∧
        net hostname p = some l := by
  intro ports
  induction ports with
  | nil => intro l h; simp [tryPortsLoop] at h
  | cons port rest ih =>
    intro l h
    simp only [tryPortsLoop, testTCPLatency] at h
    cases hp : net hostname port with
    | some l0 =>
      rw [hp] at h
      refine ⟨[], port, rest, rfl, by simp, ?_⟩
      simp only [Option.some.injEq] at h
      rw [hp, h]
    | none =>
      rw [hp] at h
      obtain ⟨pre, p, post, hsplit, hpre, hsucc⟩ := ih l h
      exact ⟨port :: pre, p, post, by rw [hsplit]; simp, by
        intro q hq
        rcases List.mem_cons.mp hq with hq | hq
        · rw [hq]; exact hp
        · exact hpre q hq, hsucc⟩

theorem tryPortsAttempts_append (net : String → Nat → Option ℚ) (hostname : String) :
    ∀ ports : List Nat, ∃ rest, tryPortsAttempts net hostname ports ++ rest = ports := by
  intro ports
  induction ports with
  | nil => exact ⟨[], rfl⟩
  | cons port tl ih =>
    simp only [tryPortsAttempts]
    cases h : net hostname port with
    | some l => exact ⟨tl, rfl⟩
    | none =>
      obtain ⟨rest, hrest⟩ := ih
      exact ⟨rest, by simp [hrest]⟩

/-- Claim C9: a probe attempts the candidate ports in the order [443, 80]
(each at most once, stopping at the first success), the first successful port
yields its elapsed latency, and when no port succeeds the result is absent;
the probe is a total function into Option (all transport failures are
absorbed; nothing is thrown and nothing is retried within one probe). -/
theorem testServerLatency_first_success (net : String → Nat → Option ℚ) (hostname : String) :
    (∃ rest, testServerLatencyAttempts net hostname ++ rest = [443, 80]) ∧
      (testServerLatencyAttempts net hostname).Nodup ∧
      (∀ l : ℚ, testServerLatency net hostname = some l →
        ∃ pre p post, ([443, 80] : List Nat) = pre ++ p :: post ∧
          (∀ q ∈ pre, net hostname q = none) ∧ net hostname p = some l) ∧
      (testServerLatency net hostname = none ↔
        net hostname 443 = none ∧ net hostname 80 = none) := by
  refine ⟨tryPortsAttempts_append net hostname [443, 80], ?_, ?_, ?_⟩
  · unfold testServerLatencyAttempts
    cases h443 : net hostname 443 <;> cases h80 : net hostname 80 <;>
      simp [tryPortsAttempts, h443, h80]
  · intro l h
    exact tryPortsLoop_eq_some net hostname [443, 80] l h
  · rw [show testServerLatency net hostname = tryPortsLoop net hostname [443, 80] from rfl,
      tryPortsLoop_eq_none_iff]
    constructor
    · intro h; exact ⟨h 443 (by simp), h 80 (by simp)⟩
    · intro h p hp
      rcases List.mem_cons.mp hp with hp | hp
      · rw [hp]; exact h.1
      · simp only [List.mem_singleton] at hp
        rw [hp]; exact h.2

/-! ### CandidateSelector lemmas -/

/-- Membership in the distance-sorted list comes from the truthy-filtered
catalog. -/
theorem mem_locationsWithDistance {K : Type} [LinearOrderedField K] [FloorRing K]
    {geoDist : ℚ → ℚ → ℚ → ℚ → K} {env : Env} {lat lon : ℚ}
    {c : Cand K} (h : c ∈ locationsWithDistance geoDist env lat lon) :
    c.loc ∈ (getServerLocationsWithCoordinates env).filter
      (fun loc => truthy loc.latitude && truthy loc.longitude) := by
  unfold locationsWithDistance at h
  rw [List.mem_insertionSort] at h
  obtain ⟨loc, hloc, hc⟩ := List.mem_map.mp h
  rw [← hc]
  exact hloc

/-- The distance-sorted list is sorted by geoDistance. -/
theorem sorted_locationsWithDistance {K : Type} [LinearOrderedField K] [FloorRing K]
    (geoDist : ℚ → ℚ → ℚ → ℚ → K) (env : Env) (lat lon : ℚ) :
    (locationsWithDistance geoDist env lat lon).Pairwise
      (fun a b => a.geoDistance ≤ b.geoDistance) := by
  haveI : IsTotal (Cand K) (fun a b => a.geoDistance ≤ b.geoDistance) :=
    ⟨fun a b => le_total a.geoDistance b.geoDistance⟩
  haveI : IsTrans (Cand K) (fun a b => a.geoDistance ≤ b.geoDistance) :=
    ⟨fun _ _ _ h1 h2 => le_trans h1 h2⟩
  exact List.sorted_insertionSort _ _

/-- The latency test never changes the underlying candidate. -/
theorem latencyTestLocation_cand {K : Type} [LinearOrderedField K] [FloorRing K]
    (env : Env) (c : Cand K) : (latencyTestLocation env c).cand = c := by
  unfold latencyTestLocation
  split
  · rfl
  · split <;> rfl

/-- A pair belongs to the extracted success list iff its probe succeeded. -/
theorem mem_valid_iff (env : Env) (loc : Loc) (s : Server) (l : ℚ) :
    (s, l) ∈ (serverTests env loc).filterMap (fun t => t.2.map (fun l => (t.1, l))) ↔
      (s, some l) ∈ serverTests env loc := by
  rw [List.mem_filterMap]
  constructor
  · rintro ⟨⟨s2, o⟩, hmem, hf⟩
    cases o with
    | none => simp at hf
    | some l2 =>
      simp at hf
      obtain ⟨h1, h2⟩ := hf
      subst h1; subst h2
      exact hmem
  · intro hmem
    exact ⟨(s, some l), hmem, rfl⟩

/-- When every probe outcome of a location is absent, the location is kept
with its first member server (or none) and no latency. -/
theorem latencyTestLocation_fail {K : Type} [LinearOrderedField K] [FloorRing K]
    (env : Env) (c : Cand K)
    (h : ∀ t ∈ serverTests env c.loc, t.2 = (none : Option ℚ)) :
    latencyTestLocation env c =
      ⟨c, (env.serversFor c.loc.city_code c.loc.country_code).head?, none⟩ := by
  have hvalid : (serverTests env c.loc).filterMap (fun t => t.2.map (fun l => (t.1, l))) = [] := by
    rw [List.filterMap_eq_nil_iff]
    intro t ht
    rw [h t ht]
    rfl
  unfold latencyTestLocation
  rcases hs : env.serversFor c.loc.city_code c.loc.country_code with _ | ⟨s0, rest⟩
  · rfl
  · rw [hvalid]
    rfl

/-- When some probe of a member succeeds, the chosen server and latency of
the location are a member attaining the minimum measured latency. -/
theorem latencyTestLocation_success {K : Type} [LinearOrderedField K] [FloorRing K]
    (env : Env) (c : Cand K) (s0 : Server) (l0 : ℚ)
    (h : (s0, some l0) ∈ serverTests env c.loc) :
    ∃ s l, latencyTestLocation env c = ⟨c, some s, some l⟩ ∧
      (s, some l) ∈ serverTests env c.loc ∧
      ∀ s2 l2, (s2, some l2) ∈ serverTests env c.loc → l ≤ l2 := by
  have hne : env.serversFor c.loc.city_code c.loc.country_code ≠ [] := by
    intro hnil
    unfold serverTests at h
    rw [hnil] at h
    simp at h
  have hmem0 : (s0, l0) ∈ (serverTests env c.loc).filterMap
      (fun t => t.2.map (fun l => (t.1, l))) := (mem_valid_iff env c.loc s0 l0).mpr h
  set valid := (serverTests env c.loc).filterMap (fun t => t.2.map (fun l => (t.1, l))) with hv
  haveI : IsTotal (Server × ℚ) (fun a b => a.2 ≤ b.2) := ⟨fun a b => le_total a.2 b.2⟩
  haveI : IsTrans (Server × ℚ) (fun a b => a.2 ≤ b.2) := ⟨fun _ _ _ h1 h2 => le_trans h1 h2⟩
  have hsorted : (valid.insertionSort (fun a b => a.2 ≤ b.2)).Pairwise (fun a b => a.2 ≤ b.2) :=
    List.sorted_insertionSort _ _
  rcases hsort : valid.insertionSort (fun a b => a.2 ≤ b.2) with _ | ⟨best, tail⟩
  · exfalso
    have hin : (s0, l0) ∈ valid.insertionSort (fun a b => a.2 ≤ b.2) :=
      (List.mem_insertionSort _).mpr hmem0
    rw [hsort] at hin
    simp at hin
  · refine ⟨best.1, best.2, ?_, ?_, ?_⟩
    · unfold latencyTestLocation
      rcases hs : env.serversFor c.loc.city_code c.loc.country_code with _ | ⟨t0, trest⟩
      · exact absurd hs hne
      · rw [← hv, hsort]
    · have hin : best ∈ valid.insertionSort (fun a b => a.2 ≤ b.2) := by
        rw [hsort]; exact List.mem_cons_self best tail
      exact (mem_valid_iff env c.loc best.1 best.2).mp ((List.mem_insertionSort _).mp hin)
    · intro s2 l2 h2
      have hmem2 : (s2, l2) ∈ valid.insertionSort (fun a b => a.2 ≤ b.2) :=
        (List.mem_insertionSort _).mpr ((mem_valid_iff env c.loc s2 l2).mpr h2)
      rw [hsort] at hmem2
      rcases List.mem_cons.mp hmem2 with hx | hx
      · rw [← hx]
      · rw [hsort] at hsorted
        exact (List.pairwise_cons.mp hsorted).1 (s2, l2) hx

/-- The final list never exceeds five entries. -/
theorem length_topServers_le {K : Type} [LinearOrderedField K] [FloorRing K]
    (geoDist : ℚ → ℚ → ℚ → ℚ → K) (env : Env) (lat lon : ℚ) :
    (topServers geoDist env lat lon).length ≤ 5 := by
  unfold topServers
  split
  · exact le_trans (List.length_take_le _ _) (le_refl 5)
  · rw [List.length_map]
    exact le_trans (List.length_take_le _ _) (le_refl 5)

/-- Every candidate underlying a final entry comes from the distance-sorted
list. -/
theorem topServers_cand_mem {K : Type} [LinearOrderedField K] [FloorRing K]
    {geoDist : ℚ → ℚ → ℚ → ℚ → K} {env : Env} {lat lon : ℚ} {t : Tested K}
    (h : t ∈ topServers geoDist env lat lon) :
    t.cand ∈ locationsWithDistance geoDist env lat lon := by
  unfold topServers at h
  split at h
  · have h1 := List.mem_of_mem_take h
    rw [List.mem_insertionSort] at h1
    have h2 := List.mem_of_mem_filter h1
    obtain ⟨c, hc, hct⟩ := List.mem_map.mp h2
    have hcand : t.cand = c := by rw [← hct]; exact latencyTestLocation_cand env c
    rw [hcand]
    exact List.mem_of_mem_take hc
  · obtain ⟨c, hc, hct⟩ := List.mem_map.mp h
    have hcand : t.cand = c := by rw [← hct]
    rw [hcand]
    exact List.mem_of_mem_take (List.mem_of_mem_take hc)

/-! ### CandidateSelector claims -/

/-- Claim C1: the sequence returned by the hybrid /api/closest has length at
most five, and every returned entry corresponds to a catalog location whose
latitude and longitude are both present (truthy). -/
theorem select_len_le_five_and_has_coords {K : Type} [LinearOrderedField K] [FloorRing K]
    (geoDist : ℚ → ℚ → ℚ → ℚ → K) (env : Env) (latQ lonQ : Option ℚ) (rs : List Entry)
    (h : (apiClosest geoDist env latQ lonQ).response = Response.ok rs) :
    rs.length ≤ 5 ∧ ∀ e ∈ rs, ∃ loc, loc ∈ getServerLocationsWithCoordinates env ∧
      truthy loc.latitude = true ∧ truthy loc.longitude = true ∧
      e.latitude = loc.latitude ∧ e.longitude = loc.longitude ∧
      e.city_code = loc.city_code ∧ e.country_code = loc.country_code := by
  unfold apiClosest at h
  split at h
  · simp at h
  · simp only [Response.ok.injEq] at h
    subst h
    constructor
    · rw [show (results geoDist env (latQ.getD 0) (lonQ.getD 0)).length
          = (topServers geoDist env (latQ.getD 0) (lonQ.getD 0)).length from List.length_map _ _]
      exact length_topServers_le geoDist env _ _
    · intro e he
      obtain ⟨t, ht, hfe⟩ := List.mem_map.mp he
      have hc := topServers_cand_mem ht
      have hf := mem_locationsWithDistance hc
      rw [List.mem_filter] at hf
      have hb := hf.2
      simp only [Bool.and_eq_true] at hb
      obtain ⟨htr1, htr2⟩ := hb
      exact ⟨t.cand.loc, hf.1, htr1, htr2, by rw [← hfe]; rfl, by rw [← hfe]; rfl,
        by rw [← hfe]; rfl, by rw [← hfe]; rfl⟩

/-- Claim C2 (amended): the handler rejects the request without touching the
catalog or the probes exactly when a query coordinate fails to parse (NaN);
any parsed pair, in range or not, proceeds to the catalog fetch. -/
theorem select_rejects_only_nan {K : Type} [LinearOrderedField K] [FloorRing K]
    (geoDist : ℚ → ℚ → ℚ → ℚ → K) (env : Env) (latQ lonQ : Option ℚ) :
    ((latQ = none ∨ lonQ = none) →
        apiClosest geoDist env latQ lonQ = ⟨Response.badRequest, false, []⟩) ∧
      ∀ lat lon : ℚ, latQ = some lat → lonQ = some lon →
        (apiClosest geoDist env latQ lonQ).catalogFetched = true ∧
        (apiClosest geoDist env latQ lonQ).response = Response.ok (results geoDist env lat lon) := by
  constructor
  · rintro (h | h) <;> subst h
    · rfl
    · rcases latQ with _ | lat <;> rfl
  · rintro lat lon rfl rfl
    exact ⟨rfl, rfl⟩

/-- Claim C3 (amended): the handler answers with the 400 rejection exactly on
unparseable coordinates, and a failed catalog fetch is absorbed into an empty
catalog so that the handler returns a normal empty list rather than an
error. -/
theorem select_absorbs_catalog_failure {K : Type} [LinearOrderedField K] [FloorRing K]
    (geoDist : ℚ → ℚ → ℚ → ℚ → K) (env : Env) (latQ lonQ : Option ℚ) :
    ((apiClosest geoDist env latQ lonQ).response = Response.badRequest ↔
        (latQ = none ∨ lonQ = none)) ∧
      (env.catalogOk = false → ∀ lat lon : ℚ, latQ = some lat → lonQ = some lon →
        (apiClosest geoDist env latQ lonQ).response = Response.ok []) := by
  constructor
  · constructor
    · intro h
      rcases hl : latQ with _ | lat
      · exact Or.inl rfl
      · rcases ho : lonQ with _ | lon
        · exact Or.inr rfl
        · subst hl; subst ho
          exact absurd h (by intro hbad; exact Response.noConfusion hbad)
    · rintro (rfl | rfl)
      · rfl
      · rcases latQ with _ | lat <;> rfl
  · intro hcat lat lon h1 h2
    subst h1; subst h2
    show Response.ok (results geoDist env lat lon) = Response.ok []
    have hg : getServerLocationsWithCoordinates env = [] := by
      unfold getServerLocationsWithCoordinates
      rw [hcat]
      rfl
    have hempty : results geoDist env lat lon = [] := by
      unfold results topServers validResults latencyTests topCandidates locationsWithDistance
      rw [hg]
      simp
    rw [hempty]

/-- Claim C4: when every probe fails, the handler still answers with the
formatted final list, which has at most five entries, is ordered by ascending
geographic distance, and annotates every entry with an absent latency and the
first member server of its location. -/
theorem select_all_probes_fail_fallback {K : Type} [LinearOrderedField K] [FloorRing K]
    (geoDist : ℚ → ℚ → ℚ → ℚ → K) (env : Env) (lat lon : ℚ)
    (hnet : ∀ h p, env.net h p = none) :
    (apiClosest geoDist env (some lat) (some lon)).response
        = Response.ok ((topServers geoDist env lat lon).map formatEntry) ∧
      (topServers geoDist env lat lon).length ≤ 5 ∧
      (topServers geoDist env lat lon).Pairwise
        (fun a b => a.cand.geoDistance ≤ b.cand.geoDistance) ∧
      ∀ t ∈ topServers geoDist env lat lon, t.tcpLatency = none ∧
        t.server = (env.serversFor t.cand.loc.city_code t.cand.loc.country_code).head? := by
  have hfail : ∀ (loc : Loc), ∀ t ∈ serverTests env loc, t.2 = (none : Option ℚ) := by
    intro loc t ht
    unfold serverTests at ht
    obtain ⟨s, hs, hts⟩ := List.mem_map.mp ht
    rw [← hts]
    cases hip : s.ipv4_addr_in with
    | none => rfl
    | some ip =>
      show testServerLatency env.net ip = none
      exact (tryPortsLoop_eq_none_iff env.net ip [443, 80]).mpr (fun p _ => hnet ip p)
  have hltl : ∀ c : Cand K, latencyTestLocation env c =
      ⟨c, (env.serversFor c.loc.city_code c.loc.country_code).head?, none⟩ :=
    fun c => latencyTestLocation_fail env c (hfail c.loc)
  have hvr : validResults geoDist env lat lon = [] := by
    unfold validResults latencyTests
    rw [List.filter_eq_nil_iff]
    intro t ht
    obtain ⟨c, hc, hct⟩ := List.mem_map.mp ht
    rw [← hct, hltl c]
    simp
  have hts : topServers geoDist env lat lon = ((topCandidates geoDist env lat lon).take 5).map
      (fun c => ⟨c, (env.serversFor c.loc.city_code c.loc.country_code).head?, none⟩) := by
    unfold topServers
    rw [hvr]
    norm_num
  refine ⟨rfl, length_topServers_le geoDist env lat lon, ?_, ?_⟩
  · rw [hts, List.pairwise_map]
    have hs := sorted_locationsWithDistance geoDist env lat lon
    have h25 : (topCandidates geoDist env lat lon).Pairwise
        (fun a b => a.geoDistance ≤ b.geoDistance) :=
      List.Pairwise.sublist (List.take_sublist _ _) hs
    exact List.Pairwise.sublist (List.take_sublist _ _) h25
  · intro t ht
    rw [hts] at ht
    obtain ⟨c, hc, hct⟩ := List.mem_map.mp ht
    rw [← hct]
    exact ⟨rfl, rfl⟩

/-- Claim C5: the shortlist holds at most 25 locations; every member server
holding an address is handed to the probe; if at least one probe of a member
succeeds, the location keeps a member attaining the minimum measured latency
as chosen server together with that latency; if every probe fails the
location keeps its first member and an absent latency; and each shortlisted
location yields exactly one retained entry of STEP 4 (none is dropped
there). -/
theorem probe_all_members_keep_min {K : Type} [LinearOrderedField K] [FloorRing K]
    (env : Env) (c : Cand K) :
    (∀ s ∈ env.serversFor c.loc.city_code c.loc.country_code, ∀ ip,
        s.ipv4_addr_in = some ip →
        (s, testServerLatency env.net ip) ∈ serverTests env c.loc ∧
          ip ∈ probedHostsLocation env c.loc) ∧
      (∀ s0 l0, (s0, some l0) ∈ serverTests env c.loc → ∃ s l,
        latencyTestLocation env c = ⟨c, some s, some l⟩ ∧
          (s, some l) ∈ serverTests env c.loc ∧
          ∀ s2 l2, (s2, some l2) ∈ serverTests env c.loc → l ≤ l2) ∧
      ((∀ t ∈ serverTests env c.loc, t.2 = (none : Option ℚ)) →
        latencyTestLocation env c =
          ⟨c, (env.serversFor c.loc.city_code c.loc.country_code).head?, none⟩) ∧
      ∀ (geoDist : ℚ → ℚ → ℚ → ℚ → K) (lat lon : ℚ),
        (topCandidates geoDist env lat lon).length ≤ 25 ∧
        (c ∈ topCandidates geoDist env lat lon →
          latencyTestLocation env c ∈ latencyTests geoDist env lat lon ∧
          (latencyTests geoDist env lat lon).length
            = (topCandidates geoDist env lat lon).length) := by
  refine ⟨?_, fun s0 l0 h => latencyTestLocation_success env c s0 l0 h,
    fun h => latencyTestLocation_fail env c h, ?_⟩
  · intro s hs ip hip
    constructor
    · unfold serverTests
      refine List.mem_map.mpr ⟨s, hs, ?_⟩
      simp only [hip]
    · unfold probedHostsLocation
      rw [List.mem_filterMap]
      exact ⟨s, hs, hip⟩
  · intro geoDist lat lon
    refine ⟨?_, fun hc => ⟨List.mem_map_of_mem _ hc, List.length_map _ _⟩⟩
    unfold topCandidates
    exact le_trans (List.length_take_le _ _) (le_refl 25)

/-- Claim C6 (amended): whenever at least one shortlisted location obtains a
measured latency, every returned entry carries a measured latency and the
returned order is ascending (non-strictly: equal measured latencies are
possible) by that latency. -/
theorem select_measured_sorted_by_latency {K : Type} [LinearOrderedField K] [FloorRing K]
    (geoDist : ℚ → ℚ → ℚ → ℚ → K) (env : Env) (lat lon : ℚ)
    (hm : ∃ c ∈ topCandidates geoDist env lat lon,
      (latencyTestLocation env c).tcpLatency.isSome = true) :
    (∀ e ∈ results geoDist env lat lon, e.tcpLatency.isSome = true) ∧
      (results geoDist env lat lon).Pairwise
        (fun a b => a.tcpLatency.getD 0 ≤ b.tcpLatency.getD 0) := by
  obtain ⟨c, hc, hcs⟩ := hm
  have hmem : latencyTestLocation env c ∈ validResults geoDist env lat lon := by
    unfold validResults latencyTests
    rw [List.mem_filter]
    exact ⟨List.mem_map_of_mem _ hc, hcs⟩
  have hpos : 0 < (validResults geoDist env lat lon).length := List.length_pos_of_mem hmem
  have htop : topServers geoDist env lat lon = ((validResults geoDist env lat lon).insertionSort
      (fun a b => a.tcpLatency.getD 0 ≤ b.tcpLatency.getD 0)).take 5 := by
    unfold topServers
    rw [if_pos hpos]
  constructor
  · intro e he
    obtain ⟨t, ht, hte⟩ := List.mem_map.mp he
    rw [htop] at ht
    have h1 := List.mem_of_mem_take ht
    rw [List.mem_insertionSort] at h1
    have hsome := List.of_mem_filter h1
    rw [← hte]
    exact hsome
  · rw [show results geoDist env lat lon = (topServers geoDist env lat lon).map formatEntry
      from rfl, List.pairwise_map, htop]
    haveI : IsTotal (Tested K) (fun a b => a.tcpLatency.getD 0 ≤ b.tcpLatency.getD 0) :=
      ⟨fun a b => le_total _ _⟩
    haveI : IsTrans (Tested K) (fun a b => a.tcpLatency.getD 0 ≤ b.tcpLatency.getD 0) :=
      ⟨fun _ _ _ h1 h2 => le_trans h1 h2⟩
    have hsorted := List.sorted_insertionSort
      (fun (a b : Tested K) => a.tcpLatency.getD 0 ≤ b.tcpLatency.getD 0)
      (validResults geoDist env lat lon)
    exact List.Pairwise.sublist (List.take_sublist _ _) hsorted

/-- Claim C10: a catalog location whose latitude or longitude equals 0 is
excluded by the truthiness filter exactly as if its coordinate were missing:
it never reaches the distance-sorted list, and replacing its coordinates by
none leaves the handler output unchanged. -/
theorem zero_coordinate_acts_as_missing {K : Type} [LinearOrderedField K] [FloorRing K]
    (geoDist : ℚ → ℚ → ℚ → ℚ → K) (env : Env) (lat lon : ℚ) (loc : Loc)
    (hzero : loc.latitude = some 0 ∨ loc.longitude = some 0) :
    (∀ c ∈ locationsWithDistance geoDist env lat lon, c.loc ≠ loc) ∧
      ∀ pre rest, env.server_locations = pre ++ loc :: rest →
        results geoDist env lat lon =
          results geoDist
            { env with server_locations :=
                pre ++ { loc with latitude := none, longitude := none } :: rest } lat lon := by
  have hploc : (truthy loc.latitude && truthy loc.longitude) = false := by
    rcases hzero with h | h <;> rw [h] <;> simp [truthy]
  constructor
  · intro c hc hceq
    have hf := mem_locationsWithDistance hc
    rw [List.mem_filter, hceq] at hf
    have hf2 := hf.2
    rw [hploc] at hf2
    exact Bool.false_ne_true hf2
  · intro pre rest hsplit
    obtain ⟨cok, slocs, sfor, netf⟩ := env
    simp only at hsplit
    subst hsplit
    have hfeq : (getServerLocationsWithCoordinates
        ⟨cok, pre ++ { loc with latitude := none, longitude := none } :: rest, sfor, netf⟩).filter
          (fun l => truthy l.latitude && truthy l.longitude) =
        (getServerLocationsWithCoordinates ⟨cok, pre ++ loc :: rest, sfor, netf⟩).filter
          (fun l => truthy l.latitude && truthy l.longitude) := by
      unfold getServerLocationsWithCoordinates
      cases cok
      · rfl
      · have hploc2 : (truthy ({ loc with latitude := none, longitude := none } : Loc).latitude &&
            truthy ({ loc with latitude := none, longitude := none } : Loc).longitude) = false := rfl
        show (pre ++ { loc with latitude := none, longitude := none } :: rest).filter _
            = (pre ++ loc :: rest).filter _
        simp only [List.filter_append, List.filter_cons, hploc, hploc2]
        simp
    unfold results topServers validResults latencyTests topCandidates locationsWithDistance
    rw [hfeq]
    rfl

/-! ### Counterexamples on the concrete fixtures -/

/-- Claim C2, counterexample: latitude 190 is not a finite in-range pair, yet
the handler accepts it, fetches the catalog and issues probes, contradicting
the claim that such input fails fast before any catalog fetch or probe. -/
theorem latitude_190_not_rejected :
    (apiClosest qDist envA (some 190) (some 0)).catalogFetched = true ∧
      (apiClosest qDist envA (some 190) (some 0)).probedHosts ≠ [] ∧
      (apiClosest qDist envA (some 190) (some 0)).response ≠ Response.badRequest := by
  refine ⟨by decide, by decide, by decide⟩

/-- Claim C3, counterexample: with the catalog unreachable the call returns a
normal empty 200 response instead of propagating an error to the caller. -/
theorem catalog_failure_returns_empty_ok :
    envDown.catalogOk = false ∧
      apiClosest qDist envDown (some 1) (some 1) = ⟨Response.ok [], true, []⟩ := by
  exact ⟨rfl, by decide⟩

/-- Claim C6, counterexample: two locations with the same measured latency
appear in the output, so the order is not strictly ascending by measured
latency even though probes succeeded. -/
theorem equal_latencies_break_strict_ascent :
    (validResults qDist envA 1 1).length = 2 ∧
      (results qDist envA 1 1).map Entry.tcpLatency = [some 10, some 10] ∧
      ¬ (results qDist envA 1 1).Pairwise
          (fun a b => ∀ x y : ℚ, a.tcpLatency = some x → b.tcpLatency = some y → x < y) := by
  refine ⟨by decide, by decide, ?_⟩
  intro hpw
  have hmap : (results qDist envA 1 1).map Entry.tcpLatency = [some 10, some 10] := by decide
  rcases hres : results qDist envA 1 1 with _ | ⟨a, _ | ⟨b, tl⟩⟩
  · rw [hres] at hmap; simp at hmap
  · rw [hres] at hmap; simp at hmap
  · rw [hres] at hmap hpw
    simp only [List.map_cons, List.cons.injEq] at hmap
    obtain ⟨ha, hb, _⟩ := hmap
    have hrel := (List.pairwise_cons.mp hpw).1 b (List.mem_cons_self b tl)
    exact absurd (hrel 10 10 ha hb) (lt_irrefl (10 : ℚ))

/-! ### Witnesses on the concrete fixtures -/

/-- Witness for claim C1 at a concrete environment. -/
theorem select_len_le_five_and_has_coords_witness :
    (results qDist envA 1 1).length ≤ 5 ∧
      ∀ e ∈ results qDist envA 1 1, ∃ loc, loc ∈ getServerLocationsWithCoordinates envA ∧
        truthy loc.latitude = true ∧ truthy loc.longitude = true ∧
        e.latitude = loc.latitude ∧ e.longitude = loc.longitude ∧
        e.city_code = loc.city_code ∧ e.country_code = loc.country_code :=
  select_len_le_five_and_has_coords qDist envA (some 1) (some 1) (results qDist envA 1 1) rfl

/-- Witness for the amended claim C2 at concrete inputs. -/
theorem select_rejects_only_nan_witness :
    apiClosest qDist envA none (some 2) = ⟨Response.badRequest, false, []⟩ ∧
      (apiClosest qDist envA (some 3) (some 2)).catalogFetched = true :=
  ⟨(select_rejects_only_nan qDist envA none (some 2)).1 (Or.inl rfl),
    ((select_rejects_only_nan qDist envA (some 3) (some 2)).2 3 2 rfl rfl).1⟩

/-- Witness for the amended claim C3 at a concrete environment. -/
theorem select_absorbs_catalog_failure_witness :
    (apiClosest qDist envDown (some 1) (some 1)).response = Response.ok [] :=
  (select_absorbs_catalog_failure qDist envDown (some 1) (some 1)).2 rfl 1 1 rfl rfl

/-- Witness for claim C4 at a concrete all-blocked environment. -/
theorem select_all_probes_fail_fallback_witness :
    (apiClosest qDist envBlocked (some 1) (some 1)).response
        = Response.ok ((topServers qDist envBlocked 1 1).map formatEntry) ∧
      (topServers qDist envBlocked 1 1).length ≤ 5 ∧
      (topServers qDist envBlocked 1 1).Pairwise
        (fun a b => a.cand.geoDistance ≤ b.cand.geoDistance) ∧
      ∀ t ∈ topServers qDist envBlocked 1 1, t.tcpLatency = none ∧
        t.server = (envBlocked.serversFor t.cand.loc.city_code t.cand.loc.country_code).head? :=
  select_all_probes_fail_fallback qDist envBlocked 1 1 (fun _ _ => rfl)

/-- Witness for claim C5 at a concrete location with one succeeding member. -/
theorem probe_all_members_keep_min_witness :
    (srvP1, some (30 : ℚ)) ∈ serverTests envA candP.loc ∧
      ∃ s l, latencyTestLocation envA candP = ⟨candP, some s, some l⟩ ∧
        (s, some l) ∈ serverTests envA candP.loc ∧
        ∀ s2 l2, (s2, some l2) ∈ serverTests envA candP.loc → l ≤ l2 :=
  ⟨by decide, (probe_all_members_keep_min envA candP).2.1 srvP1 30 (by decide)⟩

/-- Witness for the amended claim C6 at a concrete environment with measured
probes. -/
theorem select_measured_sorted_by_latency_witness :
    (∀ e ∈ results qDist envA 1 1, e.tcpLatency.isSome = true) ∧
      (results qDist envA 1 1).Pairwise
        (fun a b => a.tcpLatency.getD 0 ≤ b.tcpLatency.getD 0) :=
  select_measured_sorted_by_latency qDist envA 1 1 (by decide)

/-- Witness for claim C9 at a concrete outcome function. -/
theorem testServerLatency_first_success_witness :
    testServerLatency netW "relay1" = some 7 ∧
      ∃ pre p post, ([443, 80] : List Nat) = pre ++ p :: post ∧
        (∀ q ∈ pre, netW "relay1" q = none) ∧ netW "relay1" p = some 7 :=
  ⟨by decide, (testServerLatency_first_success netW "relay1").2.2.1 7 (by decide)⟩

/-- Witness for claim C10 at a concrete equator-latitude location. -/
theorem zero_coordinate_acts_as_missing_witness :
    (∀ c ∈ locationsWithDistance qDist envA 1 1, c.loc ≠ locZ) ∧
      results qDist envA 1 1 =
        results qDist
          { envA with server_locations :=
              [locP, locQ] ++ { locZ with latitude := none, longitude := none } :: [] } 1 1 :=
  ⟨(zero_coordinate_acts_as_missing qDist envA 1 1 locZ (Or.inl rfl)).1,
    (zero_coordinate_acts_as_missing qDist envA 1 1 locZ (Or.inl rfl)).2 [locP, locQ] [] rfl⟩

end Mullvad
